import Mathlib

/-!
Verification of the skill-descriptor pipeline of `charlie-ai-skills`:
discovery (`findSkillJsonPaths`), validation (`validateOne` plus the batch
driver in `scripts/validateSkill.js`), rendering (`generateSkillMd` and
`generateCursorRuleMd` in `scripts/generateSkillFiles.js`) and the
destination-resolution heuristics of `scripts/installSkills.js`.

Descriptors are parsed JSON objects; we model the fields the pipeline reads.
A required field is modelled as `Option String`: `none` when the key is
absent from the JSON object, `some v` when present with string value `v`
(the data model in the spec fixes all of these fields to strings).
Optional collection fields default to empty exactly as the JS coalescing
(`skill.triggers || []`, absent `non_goals` skipped) makes them.
-/

namespace CharlieSkills

/-- A skill descriptor as parsed from `skill.json`. -/
structure Skill where
  id : Option String
  title : Option String
  version : Option String
  description : Option String
  triggers : List String
  inputs : List (String × String)
  guarantees : List String
  non_goals : List String
  notes : Option String
deriving DecidableEq, Repr

/-- The `required` array of `validateOne`: `['id', 'title', 'version', 'description']`. -/
def requiredFields : List String := ["id", "title", "version", "description"]

/-- Models the JS `k in s` key-presence test for the four keys `validateOne` asks about. -/
def hasField (s : Skill) (k : String) : Bool :=
  match k with
  | "id" => s.id.isSome
  | "title" => s.title.isSome
  | "version" => s.version.isSome
  | "description" => s.description.isSome
  | _ => false

/-- `required.filter((k) => !(k in s))` of `validateOne`. -/
def missingFields (s : Skill) : List String :=
  requiredFields.filter (fun k => ! hasField s k)

/-- One step of the regex `\d+`: consume one or more leading digits greedily,
returning the rest, or `none` if the input does not start with a digit. -/
def digits1 : List Char → Option (List Char)
  | [] => none
  | c :: cs => if c.isDigit then some (cs.dropWhile Char.isDigit) else none

/-- One step of the regex literal `\.`: consume a leading dot. -/
def dotThen : List Char → Option (List Char)
  | [] => none
  | c :: cs => if c = '.' then some cs else none

/-- The test `/^\d+\.\d+\.\d+/.test(v)` of `validateOne`: the string starts
with three dot-separated runs of one or more digits; anything may follow.
Sequenced as `\d+` `\.` `\d+` `\.` `\d+` over the characters; the greedy `\d+`
is equivalent to the regex here because a digit run followed by `\.` is
necessarily maximal, and the last run only needs one digit to exist. -/
def semverTest (v : String) : Bool :=
  (((((digits1 v.toList).bind dotThen).bind digits1).bind dotThen).bind digits1).isSome

/-- The observable outcome of `validateOne` on a parsed descriptor:
`missingReq l` models `return false` after printing
`missing required fields: <l joined with ', '>`; `badVersion` models
`return false` after printing `version must be semver x.y.z`; `ok i` models
`return true` after printing `OK <i>`. -/
inductive VResult where
  | missingReq (missing : List String)
  | badVersion
  | ok (skillId : String)
deriving DecidableEq, Repr

/-- The boolean `validateOne` returns: `true` exactly on the `OK` path. -/
def VResult.toBool : VResult → Bool
  | .ok _ => true
  | _ => false

/-- `validateOne` on a descriptor that parsed: the required-key check, then the
version-shape check, then success printing the descriptor's `id`. -/
def validateOne (s : Skill) : VResult :=
  let missing := missingFields s
  if missing.isEmpty then
    if semverTest (s.version.getD "") then VResult.ok (s.id.getD "")
    else VResult.badVersion
  else VResult.missingReq missing

/-- The `JSON.parse` boundary of `validateOne`: `none` models a file whose
content is not well-formed JSON, in which case `JSON.parse` throws and
`validateOne` (which has no try/catch) propagates the exception, returning
no boolean — modelled by the `none` result. -/
def runValidateOne (content : Option Skill) : Option VResult :=
  content.map validateOne

/-- The batch loop of `validateSkill.js`:
`let failed = false; for (const p of paths) if (!validateOne(p)) failed = true;`.
Returns the per-descriptor results in order together with the `failed` flag. -/
def validateBatch (skills : List Skill) : List VResult × Bool :=
  skills.foldl
    (fun acc s =>
      let r := validateOne s
      (acc.1 ++ [r], acc.2 || ! r.toBool))
    ([], false)

/-- What the locator handed the driver: `usageExit` models
`findSkillJsonPaths` hitting a nonexistent explicit path (it prints
`Not found:` and exits 1 before the driver runs); `found` models the list of
descriptors behind the returned paths. -/
inductive LocateResult where
  | usageExit
  | found (skills : List Skill)

/-- The exit code of the `validateSkill.js` driver:
exit 1 from the locator on a bad explicit path, exit 1 when no paths were
found (usage message), else the batch loop runs and the process exits
`failed ? 2 : 0`. -/
def validateDriver : LocateResult → Nat
  | .usageExit => 1
  | .found skills =>
    if skills.isEmpty then 1
    else if (validateBatch skills).2 then 2 else 0

/-- Batch validation at the `JSON.parse` boundary: each list entry is the
parse of one discovered file (`none` = malformed JSON). The loop body calls
`validateOne`, which parses first; an uncaught parse exception terminates the
whole process, so the run yields results (`some`) only when every file
parses, and `none` as soon as any file is malformed. -/
def validateBatchParsed : List (Option Skill) → Option (List VResult)
  | [] => some []
  | none :: _ => none
  | some s :: rest => (validateBatchParsed rest).map (fun rs => validateOne s :: rs)

/-- JS template-literal stringification of a possibly-absent field:
`undefined` interpolates as the text `undefined`. -/
def jstr : Option String → String
  | none => "undefined"
  | some s => s

/-- JS `Array.prototype.join` stringification of a possibly-absent element
pushed raw into the lines array: `undefined` joins as the empty string. -/
def joinCell : Option String → String
  | none => ""
  | some s => s

/-- JS truthiness of the `notes` field: absent or the empty string is falsy. -/
def truthy : Option String → Bool
  | none => false
  | some s => ! (s == "")

/-- A rendered list item `- ${t}`. -/
def li (t : String) : String := "- " ++ t

/-- A rendered inputs item `- ${k}: ${v}`. -/
def kvLi (kv : String × String) : String := "- " ++ kv.1 ++ ": " ++ kv.2

/-- The `lines` array built by `generateSkillMd` before `join('\n')`.
The pushes `'\n## Inputs'` etc. are single array elements that contain a
leading newline, exactly as in the source. -/
def skillMdLines (skill : Skill) : List String :=
  ["# " ++ jstr skill.title,
   "version: " ++ jstr skill.version,
   "",
   "## Purpose",
   joinCell skill.description,
   "",
   "## Triggers"]
  ++ skill.triggers.map li
  ++ ["\n## Inputs"]
  ++ skill.inputs.map kvLi
  ++ ["\n## Guarantees"]
  ++ skill.guarantees.map li
  ++ ["\n## Non-goals"]
  ++ skill.non_goals.map li
  ++ ["\n## Notes"]
  ++ (if truthy skill.notes then [jstr skill.notes] else [])

/-- `generateSkillMd`: the definition document, `lines.join('\n')`. -/
def generateSkillMd (skill : Skill) : String :=
  String.intercalate "\n" (skillMdLines skill)

/-- The `lines` array built by `generateCursorRuleMd` before `join('\n')`. -/
def cursorRuleLines (skill : Skill) : List String :=
  ["# " ++ jstr skill.title ++ " (Cursor rule)",
   "scope: project",
   "version: " ++ jstr skill.version,
   "",
   "Apply this rule when the user asks to:"]
  ++ skill.triggers.map li
  ++ ["", "When generating or editing output:"]
  ++ skill.guarantees.map li
  ++ (if truthy skill.notes then ["", jstr skill.notes] else [])
  ++ (if skill.non_goals.isEmpty then []
      else ["", "Avoid:"] ++ skill.non_goals.map li)
  ++ ["", "# metadata", "id: " ++ jstr skill.id]

/-- `generateCursorRuleMd`: the rule document, `lines.join('\n')`. -/
def generateCursorRuleMd (skill : Skill) : String :=
  String.intercalate "\n" (cursorRuleLines skill)

/-- Splitter state machine for reading a rendered document back as its lines
(the inverse of `join('\n')`); `acc` holds the current line reversed. -/
def splitLinesAux : List Char → List Char → List (List Char)
  | [], acc => [acc.reverse]
  | c :: cs, acc =>
    if c = '\n' then acc.reverse :: splitLinesAux cs []
    else splitLinesAux cs (c :: acc)

/-- The lines of a rendered document, in order: the maximal
newline-free segments of the text. -/
def docLines (doc : String) : List String :=
  (splitLinesAux doc.data []).map (fun l => ⟨l⟩)

/-- A directory in the on-disk tree under `skills/`: whether it directly
contains a `skill.json`, and its subdirectories with their names
(in `readdirSync` order). -/
inductive FTree where
  | mk (hasSkillJson : Bool) (children : List (String × FTree))

mutual

/-- The recursive `walk(dir)` of `findSkillJsonPaths`: collect
`dir/skill.json` when present, then recurse into each subdirectory. -/
def walkDir : String → FTree → List String
  | dirPath, FTree.mk hasSkill children =>
    (if hasSkill then [dirPath ++ "/skill.json"] else []) ++ walkChildren dirPath children

/-- The subdirectory loop of `walk`. -/
def walkChildren : String → List (String × FTree) → List String
  | _, [] => []
  | dirPath, (name, child) :: rest =>
    walkDir (dirPath ++ "/" ++ name) child ++ walkChildren dirPath rest

end

/-- Lexicographic comparison of character sequences by code point, the order
JS `Array.prototype.sort()` applies to strings (our paths are ASCII, where
UTF-16 code-unit order and code-point order agree). -/
def charListLe : List Char → List Char → Bool
  | [], _ => true
  | _ :: _, [] => false
  | a :: as, b :: bs =>
    if a.toNat < b.toNat then true
    else if b.toNat < a.toNat then false
    else charListLe as bs

/-- The string order used by `paths.sort()`. -/
@[reducible] def pathLe (a b : String) : Prop := charListLe a.data b.data = true

instance : DecidableRel pathLe := fun _ _ => instDecidableEqBool _ _

/-- The no-argument branch of `findSkillJsonPaths`: `none` models a missing
`skills/` root (`existsSync` false ⇒ return `[]`); otherwise walk the root at
path `rootPath` and return `paths.sort()`. JS `sort()` with no comparator
sorts strings lexicographically; since that order is total and antisymmetric
the sorted rearrangement is unique, so any comparison sort models it —
we use insertion sort under `pathLe`. -/
def findSkillJsonPathsNoArg (root : Option FTree) (rootPath : String) : List String :=
  match root with
  | none => []
  | some t => List.insertionSort pathLe (walkDir rootPath t)

/-- Models JS `String.prototype.endsWith`: `pat` is a suffix of `s`. -/
def strEndsWith (s pat : String) : Bool :=
  s.data.drop (s.data.length - pat.data.length) == pat.data

/-- `installForClaude` destination resolution (current `installSkills.js`). -/
def resolveClaudeSkillsDir (dest : String) : String :=
  if strEndsWith dest ".claude/skills" || strEndsWith dest "skills" then dest
  else if strEndsWith dest ".claude" then dest ++ "/skills"
  else dest ++ "/.claude/skills"

/-- `installForCursor` destination resolution (current `installSkills.js`). -/
def resolveCursorSkillsDir (dest : String) : String :=
  if strEndsWith dest ".cursor/skills" || strEndsWith dest "skills" then dest
  else if strEndsWith dest ".cursor" then dest ++ "/skills"
  else dest ++ "/.cursor/skills"

/-- `installForCursor` destination resolution in the older rule-file variant
of `installSkills.js` (the `rulesDir` computation). -/
def resolveCursorRulesDirOld (dest : String) : String :=
  if strEndsWith dest ".cursor/rules" || strEndsWith dest "rules" then dest
  else dest ++ "/.cursor/rules"

/-- Modelled from the spec: the three-way destination-resolution heuristic of
§6 — use as-is when the destination already ends with the nested-convention
suffix, append the standard subdirectory when it ends with the top-level
convention directory, else append the full two-level subdirectory path. -/
def specThreeWayResolve (dest nested top sub : String) : String :=
  if strEndsWith dest nested || strEndsWith dest sub then dest
  else if strEndsWith dest top then dest ++ "/" ++ sub
  else dest ++ "/" ++ nested

/-- The end-to-end scenario descriptor of the spec (§8). -/
def sampleSkill : Skill :=
  { id := some "ns.sample", title := some "Sample", version := some "0.1.0",
    description := some "desc", triggers := ["t1"], inputs := [],
    guarantees := ["g1"], non_goals := ["n1"], notes := none }

/-- A descriptor whose four required keys are all present but whose
`description` is the empty string. -/
def emptyDescSkill : Skill :=
  { id := some "ns.empty", title := some "T", version := some "1.2.3",
    description := some "", triggers := [], inputs := [],
    guarantees := [], non_goals := [], notes := none }

/-- A descriptor missing the `title` and `description` keys. -/
def missingTwoSkill : Skill :=
  { id := some "ns.m", title := none, version := some "1.2.3",
    description := none, triggers := [], inputs := [],
    guarantees := [], non_goals := [], notes := none }

/-- A descriptor whose required keys are present but whose version is not
semver-shaped. -/
def badVersionSkill : Skill :=
  { id := some "ns.b", title := some "B", version := some "9.9",
    description := some "d", triggers := [], inputs := [],
    guarantees := [], non_goals := [], notes := none }

/-- A descriptor with every optional collection populated. -/
def renderSkillA : Skill :=
  { id := some "ns.r", title := some "R", version := some "1.0.0",
    description := some "d", triggers := ["t"], inputs := [("k", "v")],
    guarantees := ["g"], non_goals := ["n"], notes := some "note" }

/-- A second descriptor written out separately with the same field values as
`renderSkillA`. -/
def renderSkillB : Skill :=
  { id := some "ns.r", title := some "R", version := some "1.0.0",
    description := some "d", triggers := ["t"], inputs := [("k", "v")],
    guarantees := ["g"], non_goals := ["n"], notes := some "note" }

/-- A descriptor omitting the optional fields entirely. -/
def bareSkill : Skill :=
  { id := some "ns.bare", title := some "Bare", version := some "1.0.0",
    description := some "d", triggers := ["t"], inputs := [],
    guarantees := [], non_goals := [], notes := none }

/-- The directory shape of the spec's discovery-ordering example: the root
holds subdirectories `b` and `a` (listed in that order by the filesystem),
each containing a `skill.json`. -/
def abTree : FTree :=
  FTree.mk false [("b", FTree.mk true []), ("a", FTree.mk true [])]

example : validateOne ⟨some "a", some "b", some "1.2.3", some "d", [], [], [], [], none⟩
    = VResult.ok "a" := by decide
example : validateOne missingTwoSkill = VResult.missingReq ["title", "description"] := by decide
example : validateOne badVersionSkill = VResult.badVersion := by decide
example : semverTest "1.2.3-beta" = true := by decide
example : semverTest "v1.2.3" = false := by decide
example : semverTest "1.2" = false := by decide
example : docLines (generateSkillMd bareSkill)
    = ["# Bare", "version: 1.0.0", "", "## Purpose", "d", "", "## Triggers", "- t", "",
       "## Inputs", "", "## Guarantees", "", "## Non-goals", "", "## Notes"] := by decide

theorem dropWhile_digits_append (a r : List Char) (had : ∀ c ∈ a, c.isDigit) :
    (a ++ '.' :: r).dropWhile Char.isDigit = '.' :: r := by
  induction a with
  | nil => simp [List.dropWhile]
  | cons c a ih =>
    have hc : c.isDigit := had c (by simp)
    simp only [List.cons_append, List.dropWhile_cons, hc, if_true]
    exact ih (fun x hx => had x (by simp [hx]))

theorem digits1_append_dot (a r : List Char) (ha : a ≠ []) (had : ∀ c ∈ a, c.isDigit) :
    digits1 (a ++ '.' :: r) = some ('.' :: r) := by
  match a, ha with
  | c :: a, _ =>
    have hc : c.isDigit := had c (by simp)
    simp only [List.cons_append, digits1, hc, if_true]
    exact congrArg some (dropWhile_digits_append a r (fun x hx => had x (by simp [hx])))

theorem digits1_isSome_append (a r : List Char) (ha : a ≠ []) (had : ∀ c ∈ a, c.isDigit) :
    (digits1 (a ++ r)).isSome := by
  match a, ha with
  | c :: a, _ =>
    have hc : c.isDigit := had c (by simp)
    simp [digits1, hc]

theorem digits1_sound (cs rest : List Char) (h : digits1 cs = some rest) :
    ∃ a, a ≠ [] ∧ (∀ c ∈ a, c.isDigit) ∧ cs = a ++ rest := by
  match cs with
  | [] => simp [digits1] at h
  | c :: cs =>
    by_cases hc : c.isDigit
    · simp only [digits1, hc, if_true, Option.some.injEq] at h
      refine ⟨c :: cs.takeWhile Char.isDigit, by simp, ?_, ?_⟩
      · intro x hx
        rcases List.mem_cons.mp hx with rfl | hx
        · exact hc
        · exact List.mem_takeWhile_imp hx
      · rw [← h]
        simp [List.takeWhile_append_dropWhile]
    · simp [digits1, hc] at h

theorem dotThen_cons_dot (cs : List Char) : dotThen ('.' :: cs) = some cs := by
  simp [dotThen]

theorem dotThen_sound (l r : List Char) (h : dotThen l = some r) : l = '.' :: r := by
  match l with
  | [] => simp [dotThen] at h
  | c :: cs =>
    by_cases hc : c = '.'
    · subst hc
      simp [dotThen] at h
      rw [h]
    · simp [dotThen, hc] at h

/-- The matcher `semverTest` decides exactly the language of the regex
`^\d+\.\d+\.\d+`: a nonempty digit run, a dot, a nonempty digit run, a dot,
a nonempty digit run, then anything. -/
theorem semverTest_eq_true_iff (v : String) :
    semverTest v = true ↔
      ∃ a b c r : List Char,
        a ≠ [] ∧ b ≠ [] ∧ c ≠ [] ∧
        (∀ x ∈ a, x.isDigit) ∧ (∀ x ∈ b, x.isDigit) ∧ (∀ x ∈ c, x.isDigit) ∧
        v.data = a ++ '.' :: (b ++ '.' :: (c ++ r)) := by
  constructor
  · intro h
    unfold semverTest at h
    cases h1 : digits1 v.toList with
    | none => rw [h1] at h; simp at h
    | some r1 =>
      rw [h1] at h
      simp only [Option.some_bind] at h
      cases h2 : dotThen r1 with
      | none => rw [h2] at h; simp at h
      | some r2 =>
        rw [h2] at h
        simp only [Option.some_bind] at h
        cases h3 : digits1 r2 with
        | none => rw [h3] at h; simp at h
        | some r3 =>
          rw [h3] at h
          simp only [Option.some_bind] at h
          cases h4 : dotThen r3 with
          | none => rw [h4] at h; simp at h
          | some r4 =>
            rw [h4] at h
            simp only [Option.some_bind, Option.isSome_iff_exists] at h
            obtain ⟨r5, h5⟩ := h
            obtain ⟨a, ha, hda, hva⟩ := digits1_sound _ _ h1
            obtain ⟨b, hb, hdb, hvb⟩ := digits1_sound _ _ h3
            obtain ⟨c, hcne, hdc, hvc⟩ := digits1_sound _ _ h5
            refine ⟨a, b, c, r5, ha, hb, hcne, hda, hdb, hdc, ?_⟩
            have e1 := dotThen_sound _ _ h2
            have e2 := dotThen_sound _ _ h4
            show v.toList = _
            rw [hva, e1, hvb, e2, hvc]
  · rintro ⟨a, b, c, r, ha, hb, hc, hda, hdb, hdc, hv⟩
    have hvl : v.toList = a ++ '.' :: (b ++ '.' :: (c ++ r)) := hv
    unfold semverTest
    rw [hvl, digits1_append_dot a _ ha hda]
    simp only [Option.some_bind]
    rw [dotThen_cons_dot]
    simp only [Option.some_bind]
    rw [digits1_append_dot b _ hb hdb]
    simp only [Option.some_bind]
    rw [dotThen_cons_dot]
    simp only [Option.some_bind]
    exact digits1_isSome_append c r hc hdc

theorem charListLe_total (a b : List Char) :
    charListLe a b = true ∨ charListLe b a = true := by
  induction a generalizing b with
  | nil => left; rfl
  | cons x xs ih =>
    cases b with
    | nil => right; rfl
    | cons y ys =>
      by_cases h1 : x.toNat < y.toNat
      · left; simp [charListLe, h1]
      · by_cases h2 : y.toNat < x.toNat
        · right; simp [charListLe, h2]
        · rcases ih ys with h | h
          · left; simp [charListLe, h1, h2, h]
          · right; simp [charListLe, h1, h2, h]

theorem charListLe_trans (a b c : List Char) (hab : charListLe a b = true)
    (hbc : charListLe b c = true) : charListLe a c = true := by
  induction a generalizing b c with
  | nil => rfl
  | cons x xs ih =>
    cases b with
    | nil => simp [charListLe] at hab
    | cons y ys =>
      cases c with
      | nil => simp [charListLe] at hbc
      | cons z zs =>
        simp only [charListLe] at hab hbc ⊢
        split_ifs at hab hbc ⊢ <;>
          first
          | rfl
          | omega
          | exact ih ys zs hab hbc

instance : IsTotal String pathLe :=
  ⟨fun a b => charListLe_total a.data b.data⟩

instance : IsTrans String pathLe :=
  ⟨fun a b c => charListLe_trans a.data b.data c.data⟩

theorem validateBatch_go (skills : List Skill) (acc : List VResult) (f : Bool) :
    List.foldl
      (fun acc s =>
        let r := validateOne s
        (acc.1 ++ [r], acc.2 || ! r.toBool))
      (acc, f) skills
      = (acc ++ skills.map validateOne,
         f || skills.any (fun s => ! (validateOne s).toBool)) := by
  induction skills generalizing acc f with
  | nil => simp
  | cons s rest ih => simp [List.foldl_cons, ih, Bool.or_assoc]

theorem validateBatch_eq (skills : List Skill) :
    validateBatch skills
      = (skills.map validateOne, skills.any (fun s => ! (validateOne s).toBool)) := by
  unfold validateBatch
  rw [validateBatch_go]
  simp

theorem validateBatchParsed_map_some (parsed : List Skill) :
    validateBatchParsed (parsed.map some) = some (parsed.map validateOne) := by
  induction parsed with
  | nil => rfl
  | cons s rest ih => simp [validateBatchParsed, ih]

theorem validateBatchParsed_crash (parsed : List Skill) (rest : List (Option Skill)) :
    validateBatchParsed (parsed.map some ++ none :: rest) = none := by
  induction parsed with
  | nil => rfl
  | cons s r ih => simp [validateBatchParsed, ih]

theorem li_data (t : String) : (li t).data = '-' :: ' ' :: t.data := by
  show (("- " : String) ++ t).data = _
  rw [String.data_append]
  rfl

theorem li_ne_avoid (t : String) : li t ≠ "Avoid:" := by
  intro h
  have hd : ('-' :: ' ' :: t.data) = ("Avoid:" : String).data := by
    rw [← li_data t, h]
  have he : ("Avoid:" : String).data = ['A', 'v', 'o', 'i', 'd', ':'] := rfl
  rw [he] at hd
  injection hd with h1 _
  exact absurd h1 (by decide)

theorem str_append_assoc (a b c : String) : a ++ b ++ c = a ++ (b ++ c) := by
  apply String.ext
  simp [String.data_append, List.append_assoc]

theorem avoid_ne_append (p x : String) (c : Char) (cs : List Char)
    (hp : p.data = c :: cs) (hc : c ≠ 'A') : "Avoid:" ≠ p ++ x := by
  intro h
  have hd := congrArg String.data h
  rw [String.data_append, hp] at hd
  have he : ("Avoid:" : String).data = ['A', 'v', 'o', 'i', 'd', ':'] := rfl
  rw [he, List.cons_append] at hd
  injection hd with hh _
  exact hc hh.symm

theorem avoid_ne_title (x : String) : "Avoid:" ≠ "# " ++ x ++ " (Cursor rule)" := by
  rw [str_append_assoc]
  exact avoid_ne_append "# " (x ++ " (Cursor rule)") '#' [' '] rfl (by decide)

theorem avoid_ne_version (x : String) : "Avoid:" ≠ "version: " ++ x :=
  avoid_ne_append "version: " x 'v' ['e', 'r', 's', 'i', 'o', 'n', ':', ' '] rfl (by decide)

theorem avoid_ne_idline (x : String) : "Avoid:" ≠ "id: " ++ x :=
  avoid_ne_append "id: " x 'i' ['d', ':', ' '] rfl (by decide)

theorem missingFields_eq (s : Skill) :
    missingFields s =
      (if s.id.isSome then [] else ["id"]) ++
      (if s.title.isSome then [] else ["title"]) ++
      (if s.version.isSome then [] else ["version"]) ++
      (if s.description.isSome then [] else ["description"]) := by
  obtain ⟨i, t, v, d, tr, inp, g, ng, no⟩ := s
  cases i <;> cases t <;> cases v <;> cases d <;>
    simp [missingFields, requiredFields, hasField, List.filter]

/-- Claim C1 is false as stated: `emptyDescSkill` has all four required keys
present but its `description` is the empty string, yet `validateOne` returns
`true`. A present-but-empty required field does not fail validation, because
`validateOne` checks key presence (`k in s`), not non-emptiness. -/
theorem C1_counterexample :
    emptyDescSkill.description = some "" ∧ (validateOne emptyDescSkill).toBool = true := by
  decide

/-- Claim C1 (amended): validation fails with the missing-fields diagnostic
exactly when one of the four required keys `id`, `title`, `version`,
`description` is absent from the descriptor, and the diagnostic then
enumerates exactly the absent field names in the field-check order
id, title, version, description; when all four keys are present — even with
empty-string values — the required-field check passes (the missing-fields
failure is never reported; an empty `version` value then fails the separate
version-shape check). -/
theorem C1_required_fields (s : Skill) :
    ((s.id.isSome && s.title.isSome && s.version.isSome && s.description.isSome) = false →
      (validateOne s).toBool = false ∧
      validateOne s = VResult.missingReq
        ((if s.id.isSome then [] else ["id"]) ++
         (if s.title.isSome then [] else ["title"]) ++
         (if s.version.isSome then [] else ["version"]) ++
         (if s.description.isSome then [] else ["description"]))) ∧
    ((s.id.isSome && s.title.isSome && s.version.isSome && s.description.isSome) = true →
      ∀ l, validateOne s ≠ VResult.missingReq l) := by
  have hm := missingFields_eq s
  constructor
  · intro hmiss
    have hne : missingFields s ≠ [] := by
      rw [hm]
      obtain ⟨i, t, v, d, tr, inp, g, ng, no⟩ := s
      cases i <;> cases t <;> cases v <;> cases d <;> simp_all
    have : validateOne s = VResult.missingReq (missingFields s) := by
      simp [validateOne, List.isEmpty_iff, hne]
    rw [this, hm]
    exact ⟨rfl, rfl⟩
  · intro hall l
    have hnil : missingFields s = [] := by
      rw [hm]
      obtain ⟨i, t, v, d, tr, inp, g, ng, no⟩ := s
      cases i <;> cases t <;> cases v <;> cases d <;> simp_all
    simp only [validateOne, hnil, List.isEmpty_nil, if_true]
    split <;> simp

/-- Witness for C1: a descriptor missing `title` and `description` fails with
exactly those names, in order; a descriptor with all keys present never
reports missing fields. -/
theorem C1_witness :
    (missingTwoSkill.id.isSome && missingTwoSkill.title.isSome &&
      missingTwoSkill.version.isSome && missingTwoSkill.description.isSome) = false ∧
    (validateOne missingTwoSkill).toBool = false ∧
    validateOne missingTwoSkill = VResult.missingReq
      ((if missingTwoSkill.id.isSome then [] else ["id"]) ++
       (if missingTwoSkill.title.isSome then [] else ["title"]) ++
       (if missingTwoSkill.version.isSome then [] else ["version"]) ++
       (if missingTwoSkill.description.isSome then [] else ["description"])) ∧
    validateOne emptyDescSkill ≠ VResult.missingReq [] :=
  ⟨by decide,
   ((C1_required_fields missingTwoSkill).1 (by decide)).1,
   ((C1_required_fields missingTwoSkill).1 (by decide)).2,
   (C1_required_fields emptyDescSkill).2 (by decide) []⟩

/-- Claim C2 is false as stated: on an input file whose content is not
well-formed JSON, `validateOne` does not return a boolean — `JSON.parse`
throws and the exception propagates past the validator's boundary, modelled
by the absent (`none`) result. -/
theorem C2_counterexample : (runValidateOne none).isSome = false := rfl

/-- Claim C2 (amended): `validateOne` returns a boolean pass/fail for every
descriptor whose content parses as JSON; a parse failure is not caught — it
propagates and terminates the whole invocation, so a batch run containing one
malformed descriptor yields no per-descriptor results at all, while a batch
of well-formed descriptors yields one boolean-carrying result each. -/
theorem C2_parse_boundary (s : Skill) (parsed : List Skill) (rest : List (Option Skill)) :
    runValidateOne (some s) = some (validateOne s) ∧
    validateBatchParsed (parsed.map some) = some (parsed.map validateOne) ∧
    validateBatchParsed (parsed.map some ++ none :: rest) = none :=
  ⟨rfl, validateBatchParsed_map_some parsed, validateBatchParsed_crash parsed rest⟩

/-- Claim C3: for descriptors whose four required keys are present (and hence
`missingFields` is empty), validation succeeds exactly when the version string
matches `^\d+\.\d+\.\d+` — characterised exactly as three nonempty
dot-separated digit runs followed by an arbitrary suffix — and otherwise
fails with the distinct `version must be semver x.y.z` diagnostic
(`badVersion`); the version-shape check runs only after the required-field
check has passed: a descriptor with missing required fields always reports
those, never the semver diagnostic. -/
theorem C3_version_shape (s : Skill) (v : String) (hv : s.version = some v)
    (hreq : missingFields s = []) :
    (semverTest v = true → validateOne s = VResult.ok (s.id.getD "")) ∧
    (semverTest v = false → validateOne s = VResult.badVersion) ∧
    (∀ w : String, semverTest w = true ↔
      ∃ a b c r : List Char,
        a ≠ [] ∧ b ≠ [] ∧ c ≠ [] ∧
        (∀ x ∈ a, x.isDigit) ∧ (∀ x ∈ b, x.isDigit) ∧ (∀ x ∈ c, x.isDigit) ∧
        w.data = a ++ '.' :: (b ++ '.' :: (c ++ r))) ∧
    (∀ t : Skill, missingFields t ≠ [] →
      validateOne t = VResult.missingReq (missingFields t)) ∧
    semverTest "1.2.3" = true ∧ semverTest "1.2.3-beta" = true := by
  refine ⟨?_, ?_, semverTest_eq_true_iff, ?_, by decide, by decide⟩
  · intro hsem
    simp [validateOne, hreq, hv, hsem]
  · intro hsem
    simp [validateOne, hreq, hv, hsem]
  · intro t ht
    simp [validateOne, List.isEmpty_iff, ht]

/-- Witness for C3: the sample descriptor's `0.1.0` passes; a `9.9` version
fails with the semver diagnostic. -/
theorem C3_witness :
    validateOne sampleSkill = VResult.ok (sampleSkill.id.getD "") ∧
    validateOne badVersionSkill = VResult.badVersion :=
  ⟨(C3_version_shape sampleSkill "0.1.0" rfl (by decide)).1 (by decide),
   (C3_version_shape badVersionSkill "9.9" rfl (by decide)).2.1 (by decide)⟩

/-- Claim C4: the batch loop produces one result per discovered descriptor, in
order, with no early abort (the `failed` flag is the disjunction over all of
them), and the driver exits 1 on a bad explicit path or when nothing was
found, 2 when at least one descriptor failed validation, and 0 when all
passed. -/
theorem C4_batch_driver (skills : List Skill) :
    (validateBatch skills).1 = skills.map validateOne ∧
    (validateBatch skills).2 = skills.any (fun s => ! (validateOne s).toBool) ∧
    validateDriver (LocateResult.found skills)
      = (if skills.isEmpty then 1
         else if skills.any (fun s => ! (validateOne s).toBool) then 2 else 0) ∧
    validateDriver LocateResult.usageExit = 1 := by
  have h := validateBatch_eq skills
  refine ⟨by rw [h], by rw [h], ?_, rfl⟩
  show (if skills.isEmpty then 1 else if (validateBatch skills).2 then 2 else 0) = _
  rw [h]

/-- Claim C5: end-to-end — the sample descriptor validates successfully
(`validateOne` returns true printing `OK ns.sample`; the batch run over it
exits 0), and its rendered definition document consists of exactly the lines
below, containing `# Sample`, `version: 0.1.0`, a Triggers section holding
`- t1`, a Guarantees section holding `- g1` and a Non-goals section holding
`- n1`, in descriptor order. -/
theorem C5_end_to_end :
    validateOne sampleSkill = VResult.ok "ns.sample" ∧
    validateDriver (LocateResult.found [sampleSkill]) = 0 ∧
    docLines (generateSkillMd sampleSkill)
      = ["# Sample", "version: 0.1.0", "", "## Purpose", "desc", "", "## Triggers", "- t1",
         "", "## Inputs", "", "## Guarantees", "- g1", "", "## Non-goals", "- n1", "",
         "## Notes"] := by
  refine ⟨by decide, by decide, by decide⟩

/-- Claim C6: with no explicit path, a missing `skills/` root yields the empty
sequence rather than an error; otherwise the returned sequence of descriptor
paths is sorted lexicographically by full path, and in particular descriptors
under `b/` and `a/` (listed in that filesystem order) come back with
`a/skill.json` before `b/skill.json`. -/
theorem C6_locator (root : FTree) (rootPath : String) :
    findSkillJsonPathsNoArg none rootPath = [] ∧
    List.Sorted pathLe (findSkillJsonPathsNoArg (some root) rootPath) ∧
    findSkillJsonPathsNoArg (some abTree) "skills"
      = ["skills/a/skill.json", "skills/b/skill.json"] := by
  refine ⟨rfl, ?_, by decide⟩
  exact List.sorted_insertionSort pathLe (walkDir rootPath root)

/-- Claim C7: a descriptor omitting `inputs`, `guarantees`, `non_goals` and
`notes` entirely still renders both documents — the definition document keeps
its Inputs, Guarantees, Non-goals and Notes sections with no list items, and
the rule document contains no `Avoid:` block at all; conversely every
descriptor with non-empty `non_goals` renders the rule document with the
`Avoid:` lead-in followed by one list item per entry, in original order. -/
theorem C7_optional_fields (idv titlev versionv descv : String) (triggers : List String) :
    skillMdLines ⟨some idv, some titlev, some versionv, some descv, triggers, [], [], [], none⟩
      = ["# " ++ titlev, "version: " ++ versionv, "", "## Purpose", descv, "", "## Triggers"]
        ++ triggers.map li
        ++ ["\n## Inputs", "\n## Guarantees", "\n## Non-goals", "\n## Notes"] ∧
    cursorRuleLines
        ⟨some idv, some titlev, some versionv, some descv, triggers, [], [], [], none⟩
      = ["# " ++ titlev ++ " (Cursor rule)", "scope: project", "version: " ++ versionv, "",
         "Apply this rule when the user asks to:"]
        ++ triggers.map li
        ++ ["", "When generating or editing output:", "", "# metadata", "id: " ++ idv] ∧
    "Avoid:" ∉ cursorRuleLines
        ⟨some idv, some titlev, some versionv, some descv, triggers, [], [], [], none⟩ ∧
    (∀ s : Skill, s.non_goals ≠ [] →
      cursorRuleLines s
        = ["# " ++ jstr s.title ++ " (Cursor rule)", "scope: project",
           "version: " ++ jstr s.version, "", "Apply this rule when the user asks to:"]
          ++ s.triggers.map li
          ++ ["", "When generating or editing output:"]
          ++ s.guarantees.map li
          ++ (if truthy s.notes then ["", jstr s.notes] else [])
          ++ ["", "Avoid:"] ++ s.non_goals.map li
          ++ ["", "# metadata", "id: " ++ jstr s.id]) := by
  refine ⟨?_, ?_, ?_, ?_⟩
  · simp [skillMdLines, jstr, joinCell, truthy]
  · simp [cursorRuleLines, jstr, truthy]
  · intro hmem
    simp [cursorRuleLines, jstr, truthy, List.mem_append, List.mem_cons,
      List.mem_map, avoid_ne_title, avoid_ne_version, avoid_ne_idline,
      li_ne_avoid] at hmem
  · intro s hng
    simp [cursorRuleLines, List.isEmpty_iff, hng]

/-- Witness for C7: the rule document of a descriptor with empty optional
fields has no `Avoid:` line, while `renderSkillA` (with `non_goals = ["n"]`)
does. -/
theorem C7_witness :
    "Avoid:" ∉ cursorRuleLines
        ⟨some "ns.bare", some "Bare", some "1.0.0", some "d", ["t"], [], [], [], none⟩ ∧
    "Avoid:" ∈ cursorRuleLines renderSkillA := by
  refine ⟨(C7_optional_fields "ns.bare" "Bare" "1.0.0" "d" ["t"]).2.2.1, ?_⟩
  rw [(C7_optional_fields "ns.r" "R" "1.0.0" "d" ["t"]).2.2.2 renderSkillA (by decide)]
  decide

/-- Claim C8: both renderers are deterministic pure functions of the
descriptor: rendering the same descriptor twice yields byte-identical output,
and two descriptors with equal field values render to identical documents.
(Purity is captured by the embedding: the renderers read nothing but the
descriptor's fields.) -/
theorem C8_deterministic_render (s t : Skill)
    (h : s.id = t.id ∧ s.title = t.title ∧ s.version = t.version ∧
      s.description = t.description ∧ s.triggers = t.triggers ∧ s.inputs = t.inputs ∧
      s.guarantees = t.guarantees ∧ s.non_goals = t.non_goals ∧ s.notes = t.notes) :
    generateSkillMd s = generateSkillMd s ∧
    generateCursorRuleMd s = generateCursorRuleMd s ∧
    generateSkillMd s = generateSkillMd t ∧
    generateCursorRuleMd s = generateCursorRuleMd t := by
  obtain ⟨h1, h2, h3, h4, h5, h6, h7, h8, h9⟩ := h
  have hst : s = t := by
    cases s; cases t; simp_all
  subst hst
  exact ⟨rfl, rfl, rfl, rfl⟩

/-- Witness for C8: two separately-written descriptors with equal fields
render identically. -/
theorem C8_witness :
    generateSkillMd renderSkillA = generateSkillMd renderSkillB ∧
    generateCursorRuleMd renderSkillA = generateCursorRuleMd renderSkillB :=
  ⟨(C8_deterministic_render renderSkillA renderSkillB
      ⟨rfl, rfl, rfl, rfl, rfl, rfl, rfl, rfl, rfl⟩).2.2.1,
   (C8_deterministic_render renderSkillA renderSkillB
      ⟨rfl, rfl, rfl, rfl, rfl, rfl, rfl, rfl, rfl⟩).2.2.2⟩

/-- Claim C9 is false as stated: the older rule-file Cursor variant of
`installSkills.js` implements only a two-way heuristic. For the destination
`/p/.cursor`, which ends with the tool's top-level convention directory
`.cursor`, the claim's three-way heuristic would append only `rules`, but the
code appends the full `/.cursor/rules`. -/
theorem C9_counterexample :
    resolveCursorRulesDirOld "/p/.cursor" = "/p/.cursor/.cursor/rules" ∧
    specThreeWayResolve "/p/.cursor" ".cursor/rules" ".cursor" "rules" = "/p/.cursor/rules" ∧
    resolveCursorRulesDirOld "/p/.cursor"
      ≠ specThreeWayResolve "/p/.cursor" ".cursor/rules" ".cursor" "rules" := by
  refine ⟨by decide, by decide, by decide⟩

/-- Claim C9 (amended): the Claude installer and the skills-directory Cursor
installer resolve destinations by the spec's three-way suffix heuristic; the
older rule-file Cursor variant instead uses a two-way heuristic — the
destination is used as-is when it already ends with `.cursor/rules` or
`rules`, and otherwise the full `/.cursor/rules` is appended, even when the
destination already ends with `.cursor`. -/
theorem C9_destination_resolution (dest : String) :
    resolveClaudeSkillsDir dest
      = specThreeWayResolve dest ".claude/skills" ".claude" "skills" ∧
    resolveCursorSkillsDir dest
      = specThreeWayResolve dest ".cursor/skills" ".cursor" "skills" ∧
    resolveCursorRulesDirOld dest
      = (if strEndsWith dest ".cursor/rules" || strEndsWith dest "rules" then dest
         else dest ++ "/" ++ ".cursor/rules") := by
  have e : ∀ (d tail tl2 : String), ("/" : String) ++ tail = tl2 →
      d ++ "/" ++ tail = d ++ tl2 := by
    intro d tail tl2 h
    rw [str_append_assoc, h]
  refine ⟨?_, ?_, ?_⟩
  · unfold resolveClaudeSkillsDir specThreeWayResolve
    rw [e dest "skills" "/skills" (by decide),
      e dest ".claude/skills" "/.claude/skills" (by decide)]
  · unfold resolveCursorSkillsDir specThreeWayResolve
    rw [e dest "skills" "/skills" (by decide),
      e dest ".cursor/skills" "/.cursor/skills" (by decide)]
  · unfold resolveCursorRulesDirOld
    rw [e dest ".cursor/rules" "/.cursor/rules" (by decide)]

end CharlieSkills
